import Mathlib

/-!
Verification of the agent-simulation engine of the AI-TRPG system.

The JavaScript modules (`trust_map.js`, `agent_registry.js`, `agent_policy.js`,
`memory_manager.js`, `history.js`, `action_space.js`) are shallowly embedded:
each stateful singleton becomes explicit state passing over a state record,
`new Date().toISOString()` / `Date.now()` timestamps become `now` parameters,
JS numbers holding relationship factors / importances / deltas become `Int`,
and `Math.random()` becomes an explicit draw parameter.  JS `Map`s are
embedded as insertion-ordered association lists (`List (String × β)`), whose
`get` returns the first binding and whose `set` replaces the binding in place
or appends a fresh one at the end, exactly like the JS `Map` semantics on its
(unique) keys.  Agent/memory records keep exactly the fields that the embedded
operations read or write; purely descriptive fields (names, portraits, ...)
that no modeled operation touches are omitted.
-/

/-! ## Generic association-list maps (JS `Map` on string keys) -/

/-- JS `Map.get k`: first binding for the key, if any. -/
def mapGet {β : Type} : List (String × β) → String → Option β
  | [], _ => none
  | p :: rest, k => if p.1 = k then some p.2 else mapGet rest k

/-- JS `Map.set k v`: replace the binding in place, else append. -/
def mapSet {β : Type} : List (String × β) → String → β → List (String × β)
  | [], k, v => [(k, v)]
  | p :: rest, k, v => if p.1 = k then (k, v) :: rest else p :: mapSet rest k v

/-! ## Strings: code-point comparison and `String.prototype.includes` -/

/-- Lexicographic `≤` on char lists; embeds the default comparator used by
`Array.prototype.sort` on a pair of strings (code-unit/code-point order). -/
def charsLeB : List Char → List Char → Bool
  | [], _ => true
  | _ :: _, [] => false
  | a :: as, b :: bs => a < b || (a = b && charsLeB as bs)

/-- Does `pat` occur as a prefix of `s`?  Helper for `strIncludes`. -/
def leadMatch : List Char → List Char → Bool
  | [], _ => true
  | _ :: _, [] => false
  | p :: ps, c :: cs => p = c && leadMatch ps cs

/-- Does `pat` occur anywhere inside `s`?  Helper for `strIncludes`. -/
def hasPat (pat : List Char) : List Char → Bool
  | [] => leadMatch pat []
  | c :: rest => leadMatch pat (c :: rest) || hasPat pat rest

/-- JS `s.includes(pat)`: substring containment. -/
def strIncludes (s pat : String) : Bool := hasPat pat.data s.data

/-! ## Data model of `trust_map.js` and the agent registry -/

/-- One entry of a relationship's append-only `history` array; the `effect`
sub-object of `trust_map.js # processActionEffect` is inlined as three fields. -/
structure RelHistoryEntry where
  actionType : String
  content : String
  effectTrust : Int
  effectIntimacy : Int
  effectRespect : Int
  timestamp : String
deriving Repr, DecidableEq

/-- A relationship record (`trust_map.js`).  `factors` is the JS object
mapping factor names (`trust`, `intimacy`, `respect`, `loyalty`,
`dependency`) to numbers, embedded as an association list. -/
structure Relationship where
  type : String
  factors : List (String × Int)
  history : List RelHistoryEntry
  notes : String
  createdAt : String
  updatedAt : String
deriving Repr, DecidableEq

/-- The partial relationship object accepted by `setRelationship`: JS object
spread `{...DEFAULT_RELATIONSHIP, ...relationship}` only overrides the keys
present in the argument, so each field is optional here. -/
structure RelPatch where
  type : Option String := none
  factors : Option (List (String × Int)) := none
  history : Option (List RelHistoryEntry) := none
  notes : Option String := none
  createdAt : Option String := none
  updatedAt : Option String := none
deriving Repr, DecidableEq

/-- View a full relationship record as the `setRelationship` argument, the way
`updateRelationshipFactor` / `addRelationshipHistory` pass a full object. -/
def Relationship.toPatch (r : Relationship) : RelPatch :=
  { type := some r.type, factors := some r.factors, history := some r.history,
    notes := some r.notes, createdAt := some r.createdAt, updatedAt := some r.updatedAt }

/-- Embeds `DEFAULT_RELATIONSHIP` of `trust_map.js`. -/
def DEFAULT_RELATIONSHIP : Relationship :=
  { type := "stranger"
    factors := [("trust", 50), ("intimacy", 0), ("respect", 50), ("loyalty", 0), ("dependency", 0)]
    history := []
    notes := ""
    createdAt := ""
    updatedAt := "" }

/-- An agent record of `agent_registry.js`, restricted to the fields the
embedded operations touch; `relationships` is the denormalized per-agent
mirror of the trust map. -/
structure Agent where
  id : String
  type : String
  relationships : List (String × Relationship)
  updatedAt : String
deriving Repr, DecidableEq

/-- The partial update object accepted by `agentRegistry.updateAgent`,
restricted to the fields written by the embedded callers. -/
structure AgentPatch where
  relationships : Option (List (String × Relationship)) := none
deriving Repr, DecidableEq

/-- The combined mutable state of the `trustMap` and `agentRegistry`
singletons: the canonical relationship `Map` keyed by the sorted-joined pair
key, and the registry's agent `Map` keyed by agent id. -/
structure SysState where
  relationships : List (String × Relationship)
  agents : List (String × Agent)
deriving Repr, DecidableEq

/-! ## Operations of `agent_registry.js` (the parts the trust map calls) -/

/-- Embeds `agentRegistry.getAgent`: `this.agents.get(agentId) || null`. -/
def getAgent (agentId : String) (st : SysState) : Option Agent :=
  mapGet st.agents agentId

/-- Embeds `agentRegistry.updateAgent`: merge the partial update onto the stored
agent, stamp `updatedAt`, and store it back; `null` when the id is unknown.
(The propagation into the game-state blob is a further mirror that no claim
touches and is omitted.) -/
def updateAgent (agentId : String) (updates : AgentPatch) (now : String) (st : SysState) :
    Option Agent × SysState :=
  match mapGet st.agents agentId with
  | none => (none, st)
  | some agent =>
    let updatedAgent : Agent :=
      { agent with
        relationships := updates.relationships.getD agent.relationships
        updatedAt := now }
    (some updatedAgent, { st with agents := mapSet st.agents agentId updatedAgent })

/-! ## Operations of `trust_map.js` -/

/-- Embeds `_getRelationshipKey`: `[agentId1, agentId2].sort().join('_')`. -/
def _getRelationshipKey (agentId1 agentId2 : String) : String :=
  if charsLeB agentId1.data agentId2.data then agentId1 ++ "_" ++ agentId2
  else agentId2 ++ "_" ++ agentId1

/-- Embeds `getRelationship`: `null` for a self pair, else the stored record for the
symmetric key (or `null`). -/
def getRelationship (agentId1 agentId2 : String) (st : SysState) : Option Relationship :=
  if agentId1 = agentId2 then none
  else mapGet st.relationships (_getRelationshipKey agentId1 agentId2)

/-- Embeds `_updateAgentRelationships`: mirror the stored relationship into both
agents' denormalized `relationships` maps, for whichever of the two agents
exists in the registry.  Both agent records are read before the first write,
exactly as in the source. -/
def _updateAgentRelationships (agentId1 agentId2 : String) (relationship : Relationship)
    (now : String) (st : SysState) : SysState :=
  let agent1? := getAgent agentId1 st
  let agent2? := getAgent agentId2 st
  let st1 :=
    match agent1? with
    | some agent1 =>
      (updateAgent agentId1 ⟨some (mapSet agent1.relationships agentId2 relationship)⟩ now st).2
    | none => st
  match agent2? with
  | some agent2 =>
    (updateAgent agentId2 ⟨some (mapSet agent2.relationships agentId1 relationship)⟩ now st1).2
  | none => st1

/-- The record stored by `setRelationship`: the argument spread over
`DEFAULT_RELATIONSHIP` (`{...DEFAULT_RELATIONSHIP, ...relationship,
updatedAt: now}`), with a falsy (empty) `createdAt` replaced by `now`. -/
def completeRelationship (relationship : RelPatch) (now : String) : Relationship :=
  let complete : Relationship :=
    { type := relationship.type.getD DEFAULT_RELATIONSHIP.type
      factors := relationship.factors.getD DEFAULT_RELATIONSHIP.factors
      history := relationship.history.getD DEFAULT_RELATIONSHIP.history
      notes := relationship.notes.getD DEFAULT_RELATIONSHIP.notes
      createdAt := relationship.createdAt.getD DEFAULT_RELATIONSHIP.createdAt
      updatedAt := now }
  if complete.createdAt = "" then { complete with createdAt := now } else complete

/-- Embeds `setRelationship`: throws on a self pair; otherwise merges the argument
onto `DEFAULT_RELATIONSHIP`, forces `updatedAt := now`, replaces a falsy
(empty) `createdAt` by `now`, stores the record under the symmetric key and
mirrors it into both agent records. -/
def setRelationship (agentId1 agentId2 : String) (relationship : RelPatch) (now : String)
    (st : SysState) : Except String (Relationship × SysState) :=
  if agentId1 = agentId2 then .error "不能设置角色与自身的关系"
  else
    let key := _getRelationshipKey agentId1 agentId2
    let complete := completeRelationship relationship now
    let st' : SysState := { st with relationships := mapSet st.relationships key complete }
    let st' := _updateAgentRelationships agentId1 agentId2 complete now st'
    .ok (complete, st')

/-- Embeds `updateRelationshipFactor`: `null` when no relationship exists, else clamp
the new value to `[0,100]`, write it into a copy of the factors object and
persist through `setRelationship`. -/
def updateRelationshipFactor (agentId1 agentId2 factor : String) (value : Int) (now : String)
    (st : SysState) : Option (Relationship × SysState) :=
  match getRelationship agentId1 agentId2 st with
  | none => none
  | some relationship =>
    let clampedValue := max 0 (min 100 value)
    let updatedRelationship :=
      { relationship with
        factors := mapSet relationship.factors factor clampedValue
        updatedAt := now }
    match setRelationship agentId1 agentId2 updatedRelationship.toPatch now st with
    | .ok res => some res
    | .error _ => none

/-- Embeds `adjustRelationshipFactor`: `null` when no relationship exists, else read
the current value (`relationship.factors[factor] || 0`, i.e. `0` when the
factor is absent), clamp `current + delta` to `[0,100]` and persist through
`updateRelationshipFactor`. -/
def adjustRelationshipFactor (agentId1 agentId2 factor : String) (delta : Int) (now : String)
    (st : SysState) : Option (Relationship × SysState) :=
  match getRelationship agentId1 agentId2 st with
  | none => none
  | some relationship =>
    let currentValue := (mapGet relationship.factors factor).getD 0
    let newValue := max 0 (min 100 (currentValue + delta))
    updateRelationshipFactor agentId1 agentId2 factor newValue now st

/-- Embeds `addRelationshipHistory`: `null` when no relationship exists, else append
the entry (with a falsy timestamp replaced by `now`) to a copy of the history
array and persist through `setRelationship`. -/
def addRelationshipHistory (agentId1 agentId2 : String) (historyEntry : RelHistoryEntry)
    (now : String) (st : SysState) : Option (Relationship × SysState) :=
  match getRelationship agentId1 agentId2 st with
  | none => none
  | some relationship =>
    let completeEntry :=
      if historyEntry.timestamp = "" then { historyEntry with timestamp := now }
      else historyEntry
    let updatedRelationship :=
      { relationship with
        history := relationship.history ++ [completeEntry]
        updatedAt := now }
    match setRelationship agentId1 agentId2 updatedRelationship.toPatch now st with
    | .ok res => some res
    | .error _ => none

/-! ## `action_space.js` actions and `processActionEffect` -/

/-- An action record (`action_space.js`), restricted to the fields that
`processActionEffect` and the response policy read; `targetId : Option` embeds
the JS `targetId` that may be `null`.  (Named `GameAction` because `Action`
is taken by the ambient library.) -/
structure GameAction where
  type : String
  actorId : String
  content : String
  targetType : String
  targetId : Option String
deriving Repr, DecidableEq

/-- JS falsiness of the `targetId` field (`!action.targetId`): `null`,
`undefined` or the empty string. -/
def targetIdFalsy : Option String → Bool
  | none => true
  | some s => s == ""

/-- The `(trustDelta, intimacyDelta, respectDelta)` computed by the
`switch (action.type)` keyword chains of `processActionEffect`. -/
def actionEffectDeltas (type content : String) : Int × Int × Int :=
  if type = "dialogue" then
    if strIncludes content "感谢" || strIncludes content "谢谢" then (2, 0, 1)
    else if strIncludes content "抱歉" || strIncludes content "对不起" then (1, 0, 2)
    else if strIncludes content "喜欢" || strIncludes content "爱" then (1, 3, 0)
    else if strIncludes content "讨厌" || strIncludes content "恨" then (-1, -3, 0)
    else (0, 0, 0)
  else if type = "action" then
    if strIncludes content "帮助" || strIncludes content "援助" then (3, 0, 2)
    else if strIncludes content "攻击" || strIncludes content "伤害" then (-5, 0, -3)
    else if strIncludes content "拥抱" || strIncludes content "亲吻" then (0, 4, 0)
    else (0, 0, 0)
  else if type = "item" then
    if strIncludes content "赠送" || strIncludes content "给予" then (2, 1, 0)
    else if strIncludes content "偷窃" || strIncludes content "抢夺" then (-4, 0, -2)
    else (0, 0, 0)
  else (0, 0, 0)

/-- Embeds `processActionEffect`: no-op returning `null` unless the action targets a
(distinct, existing-relationship) character; otherwise apply the non-zero
keyword deltas via `adjustRelationshipFactor`, append one history entry
recording the computed deltas, and return the updated relationship. -/
def processActionEffect (action : GameAction) (now : String) (st : SysState) :
    Option Relationship × SysState :=
  if action.targetType != "character" || targetIdFalsy action.targetId then (none, st)
  else
    let actorId := action.actorId
    let targetId := action.targetId.getD ""
    if actorId = targetId then (none, st)
    else
      match getRelationship actorId targetId st with
      | none => (none, st)
      | some _ =>
        let d := actionEffectDeltas action.type action.content
        let trustDelta := d.1
        let intimacyDelta := d.2.1
        let respectDelta := d.2.2
        let st1 :=
          if trustDelta ≠ 0 then
            match adjustRelationshipFactor actorId targetId "trust" trustDelta now st with
            | some (_, s) => s
            | none => st
          else st
        let st2 :=
          if intimacyDelta ≠ 0 then
            match adjustRelationshipFactor actorId targetId "intimacy" intimacyDelta now st1 with
            | some (_, s) => s
            | none => st1
          else st1
        let st3 :=
          if respectDelta ≠ 0 then
            match adjustRelationshipFactor actorId targetId "respect" respectDelta now st2 with
            | some (_, s) => s
            | none => st2
          else st2
        let st4 :=
          match addRelationshipHistory actorId targetId
              { actionType := action.type, content := action.content,
                effectTrust := trustDelta, effectIntimacy := intimacyDelta,
                effectRespect := respectDelta, timestamp := "" } now st3 with
          | some (_, s) => s
          | none => st3
        (getRelationship actorId targetId st4, st4)

/-! ## The response policy of `agent_policy.js` (`_determineResponseType`) -/

/-- The slice of the response context built by `_prepareResponseContext` that
`_determineResponseType` reads from `context.agent`. -/
structure PolicyCtxAgent where
  id : String
  emotionIntensity : Int
deriving Repr, DecidableEq

/-- The slice of the response context that `_determineResponseType` reads
from `context.action`. -/
structure PolicyCtxAction where
  type : String
  content : String
  targetId : Option String
deriving Repr, DecidableEq

/-- The `context.relationship` slice as flattened by `_prepareResponseContext`
(`trust`/`intimacy`/`respect` copied out of the factors object). -/
structure PolicyCtxRelationship where
  type : String
  trust : Int
  intimacy : Int
  respect : Int
deriving Repr, DecidableEq

/-- The response context; `relationship` is `null` when the actor has no
stored relationship with the responding agent. -/
structure PolicyContext where
  agent : PolicyCtxAgent
  action : PolicyCtxAction
  relationship : Option PolicyCtxRelationship
deriving Repr, DecidableEq

/-- Embeds `relationship && relationship.trust < 20` of `_determineResponseType`. -/
def lowTrust : Option PolicyCtxRelationship → Bool
  | some rel => decide (rel.trust < 20)
  | none => false

/-- Embeds `_determineResponseType`, with the single `Math.random()` call of the
low-trust branch made explicit as the draw parameter `randomDraw` (uniform on
`[0,1)`); generic over the ordered field so that the draw can be instantiated
at `ℝ` in the probabilistic statements. -/
def _determineResponseType {α : Type} [LinearOrderedField α] (context : PolicyContext)
    (randomDraw : α) : String :=
  if context.action.type = "dialogue" ∧ context.action.targetId = some context.agent.id then
    "dialogue"
  else if 70 < context.agent.emotionIntensity then "emotion"
  else if strIncludes context.action.content "请求" || strIncludes context.action.content "帮助" then
    "decision"
  else if lowTrust context.relationship then
    if (7 / 10 : α) < randomDraw then "rejection" else "dialogue"
  else "dialogue"

/-! ## The memory store of `memory_manager.js` -/

/-- Embeds `MemoryImportance.CRITICAL` (the `LOW/MEDIUM/HIGH/CRITICAL` ordinals are
`1/2/3/4`). -/
def MemoryImportance.CRITICAL : Int := 4

/-- A memory record, restricted to the fields `_removeOldestMemory` reads;
`createdAt` embeds `new Date(memory.createdAt).getTime()` in milliseconds. -/
structure Memory where
  id : String
  importance : Int
  createdAt : Nat
deriving Repr, DecidableEq

/-- The `forEach` scan of `_removeOldestMemory`: fold over the memory `Map`
in insertion order, tracking `(oldestTime, oldestId)`, starting from
`(Date.now(), null)`; only non-critical memories with a strictly older
creation time replace the candidate. -/
def scanOldest : List (String × Memory) → Nat → Option String → Nat × Option String
  | [], oldestTime, oldestId => (oldestTime, oldestId)
  | (id, memory) :: rest, oldestTime, oldestId =>
    if memory.importance < MemoryImportance.CRITICAL ∧ memory.createdAt < oldestTime then
      scanOldest rest memory.createdAt (some id)
    else scanOldest rest oldestTime oldestId

/-- Embeds `_removeOldestMemory`: delete the scan's candidate, if any (the deletion
of the id from the per-agent index and the game-state mirror is omitted). -/
def _removeOldestMemory (now : Nat) (memories : List (String × Memory)) :
    List (String × Memory) :=
  match (scanOldest memories now none).2 with
  | some oldestId => memories.filter (fun p => p.1 != oldestId)
  | none => memories

/-- Embeds `memoryManager.addMemory` (capacity part): store the record under its id,
then evict through `_removeOldestMemory` when the map has grown past
`maxMemories`.  Id/timestamp generation for records lacking them is impure
and performed before this point; the argument is the completed record. -/
def addMemory (maxMemories : Nat) (now : Nat) (memory : Memory)
    (memories : List (String × Memory)) : List (String × Memory) :=
  let memories' := mapSet memories memory.id memory
  if maxMemories < memories'.length then _removeOldestMemory now memories' else memories'

/-! ## The history log of `history.js` -/

/-- Embeds `historyManager.addEntry` (capacity part): push the completed entry, then
`shift()` the oldest entry (index 0) once the length exceeds
`maxHistoryLength`.  Entries are abstract here: the id/timestamp stamping of
`completeEntry` is impure and does not affect the FIFO behaviour. -/
def addEntry {α : Type} (maxHistoryLength : Nat) (history : List α) (entry : α) : List α :=
  let history' := history ++ [entry]
  if maxHistoryLength < history'.length then history'.drop 1 else history'

/-- Inserting a sequence of entries with `addEntry`. -/
def addEntries {α : Type} (maxHistoryLength : Nat) (history : List α) (entries : List α) :
    List α :=
  entries.foldl (addEntry maxHistoryLength) history

/-! ## Free-text parsing of `action_space.js` (`parseActionInput`) -/

/-- JS regex `\s` (ECMA-262 WhiteSpace ∪ LineTerminator). -/
def jsWhitespaceChar (c : Char) : Bool :=
  c == '\t' || c == '\n' || c == '\x0b' || c == '\x0c' || c == '\r' || c == ' ' ||
  c == ' ' || c == ' ' || (decide (0x2000 ≤ c.toNat) && decide (c.toNat ≤ 0x200a)) || c == ' ' ||
  c == ' ' || c == ' ' || c == ' ' || c == '　' || c == '﻿'

/-- JS regex `.` (anything but a line terminator). -/
def isDotChar (c : Char) : Bool :=
  !(c == '\n' || c == '\r' || c == ' ' || c == ' ')

/-- The lazy group `(.+?)` of the anchored patterns: scan the remainder,
preferring the shortest non-empty group after which `tailOk` accepts the
rest of the input. -/
def lazyCore (tailOk : List Char → Bool) : List Char → List Char → Option (List Char)
  | [], acc => if acc ≠ [] ∧ tailOk [] then some acc.reverse else none
  | c :: rest, acc =>
    if acc ≠ [] ∧ tailOk (c :: rest) then some acc.reverse
    else if isDotChar c then lazyCore tailOk rest (c :: acc)
    else none

/-- Tail `[closer]\s*$` of the bracket/brace patterns. -/
def wrapTailOk (closes : List Char) : List Char → Bool
  | c :: rest => closes.contains c && rest.all jsWhitespaceChar
  | [] => false

/-- Tail `["]?\s*$` of the dialogue pattern (the closing quote is optional). -/
def quoteTailOk (cs : List Char) : Bool :=
  cs.all jsWhitespaceChar ||
    (match cs with
     | c :: rest => c == '"' && rest.all jsWhitespaceChar
     | [] => false)

/-- Full-string match of `/^\s*[open](.+?)[close]\s*$/`, returning the group. -/
def matchWrapped (opens closes : List Char) (input : String) : Option String :=
  match input.data.dropWhile jsWhitespaceChar with
  | [] => none
  | c :: rest =>
    if opens.contains c then (lazyCore (wrapTailOk closes) rest []).map String.mk else none

/-- Full-string match of `/^\s*["](.+?)["]?\s*$/`, returning the group. -/
def matchQuoted (input : String) : Option String :=
  match input.data.dropWhile jsWhitespaceChar with
  | [] => none
  | c :: rest => if c == '"' then (lazyCore quoteTailOk rest []).map String.mk else none

/-- The `{type, content}` result of `parseActionInput`. -/
structure ParsedInput where
  type : String
  content : String
deriving Repr, DecidableEq

/-- Embeds `parseActionInput`: try the action pattern, then the item pattern, then
the dialogue-quote pattern, first match winning; the default is a dialogue
action carrying the raw input. -/
def parseActionInput (input : String) : ParsedInput :=
  match matchWrapped ['[', '【'] [']', '】'] input with
  | some content => { type := "action", content := content }
  | none =>
    match matchWrapped ['{', '「'] ['}', '」'] input with
    | some content => { type := "item", content := content }
    | none =>
      match matchQuoted input with
      | some content => { type := "dialogue", content := content }
      | none => { type := "dialogue", content := input }

/-! ## Concrete fixtures used by the witness theorems -/

/-- A stored relationship with trust 90, used as a concrete witness state. -/
def sampleRel : Relationship :=
  { type := "stranger"
    factors := [("trust", 90), ("intimacy", 0), ("respect", 50), ("loyalty", 0), ("dependency", 0)]
    history := []
    notes := ""
    createdAt := "2024-01-01T00:00:00.000Z"
    updatedAt := "2024-01-01T00:00:00.000Z" }

/-- A trust-map state holding exactly the alice–bob relationship. -/
def sampleState : SysState :=
  { relationships := [(_getRelationshipKey "alice" "bob", sampleRel)]
    agents := [] }

/-- A state like `sampleState` in which both agents also exist in the
registry, so the denormalized mirror is exercised. -/
def sampleAgentsState : SysState :=
  { relationships := [(_getRelationshipKey "alice" "bob", sampleRel)]
    agents :=
      [("alice", { id := "alice", type := "npc", relationships := [], updatedAt := "" }),
       ("bob", { id := "bob", type := "npc", relationships := [], updatedAt := "" })] }

/-- The record produced by a successful `adjustRelationshipFactor` call, as
established by `adjustRelationshipFactor_spec`: the clamped factor write plus
the timestamp handling of `setRelationship`. -/
def adjustedRelationship (rel : Relationship) (factor : String) (delta : Int) (now : String) :
    Relationship :=
  { rel with
    factors := mapSet rel.factors factor
      (max 0 (min 100 ((mapGet rel.factors factor).getD 0 + delta)))
    updatedAt := now
    createdAt := if rel.createdAt = "" then now else rel.createdAt }

/-- The record produced by a successful `addRelationshipHistory` call, as
established by `addRelationshipHistory_spec`. -/
def appendedHistory (rel : Relationship) (entry : RelHistoryEntry) (now : String) :
    Relationship :=
  { rel with
    history := rel.history ++
      [if entry.timestamp = "" then { entry with timestamp := now } else entry]
    updatedAt := now
    createdAt := if rel.createdAt = "" then now else rel.createdAt }

/-- A memory map holding one critical and one low-importance record. -/
def sampleMemories : List (String × Memory) :=
  [("m1", { id := "m1", importance := 4, createdAt := 5 }),
   ("m2", { id := "m2", importance := 1, createdAt := 10 })]

/-- A medium-importance record whose insertion overflows a capacity of 2. -/
def sampleNewMemory : Memory := { id := "m3", importance := 2, createdAt := 20 }

/-- A response context that reaches the low-trust branch of
`_determineResponseType`: not a dialogue at this agent, calm emotion, no
request/help keyword, and an existing relationship with trust 10. -/
def sampleLowTrustContext : PolicyContext :=
  { agent := { id := "npc1", emotionIntensity := 50 }
    action := { type := "action", content := "走开", targetId := some "npc1" }
    relationship := some { type := "stranger", trust := 10, intimacy := 0, respect := 40 } }

/-! ## Helper lemmas -/

theorem mapGet_mapSet_self {β : Type} (l : List (String × β)) (k : String) (v : β) :
    mapGet (mapSet l k v) k = some v := by
  induction l with
  | nil => simp [mapGet, mapSet]
  | cons p rest ih =>
    by_cases h : p.1 = k
    · simp [mapGet, mapSet, h]
    · simp [mapGet, mapSet, h, ih]

theorem mapGet_mapSet_ne {β : Type} (l : List (String × β)) (k k' : String) (v : β)
    (h : k' ≠ k) : mapGet (mapSet l k v) k' = mapGet l k' := by
  induction l with
  | nil => simp [mapGet, mapSet, Ne.symm h]
  | cons p rest ih =>
    by_cases hp : p.1 = k
    · subst hp
      simp [mapGet, mapSet, Ne.symm h, h]
    · by_cases hp' : p.1 = k'
      · simp [mapGet, mapSet, hp, hp', h]
      · simp [mapGet, mapSet, hp, hp', ih]

theorem charsLeB_total (l1 l2 : List Char) : charsLeB l1 l2 = true ∨ charsLeB l2 l1 = true := by
  induction l1 generalizing l2 with
  | nil => left; rfl
  | cons a as ih =>
    cases l2 with
    | nil => right; rfl
    | cons b bs =>
      rcases lt_trichotomy a b with h | h | h
      · left; simp [charsLeB, h]
      · subst h
        rcases ih bs with h' | h'
        · left; simp [charsLeB, h']
        · right; simp [charsLeB, h']
      · right; simp [charsLeB, h]

theorem charsLeB_antisymm (l1 l2 : List Char) (h1 : charsLeB l1 l2 = true)
    (h2 : charsLeB l2 l1 = true) : l1 = l2 := by
  induction l1 generalizing l2 with
  | nil =>
    cases l2 with
    | nil => rfl
    | cons b bs => simp [charsLeB] at h2
  | cons a as ih =>
    cases l2 with
    | nil => simp [charsLeB] at h1
    | cons b bs =>
      simp [charsLeB] at h1 h2
      rcases h1 with h1 | ⟨rfl, h1⟩
      · rcases h2 with h2 | ⟨rfl, h2⟩
        · exact absurd h2 (not_lt.2 h1.le)
        · exact absurd h1 (lt_irrefl _)
      · rcases h2 with h2 | ⟨-, h2⟩
        · exact absurd h2 (lt_irrefl _)
        · rw [ih bs h1 h2]

/-- Symmetry of the pair key, from totality and antisymmetry of the
comparator used by `sort`. -/
theorem _getRelationshipKey_symm (a b : String) :
    _getRelationshipKey a b = _getRelationshipKey b a := by
  unfold _getRelationshipKey
  by_cases h1 : charsLeB a.data b.data = true <;>
    by_cases h2 : charsLeB b.data a.data = true
  · have hd : a.data = b.data := charsLeB_antisymm _ _ h1 h2
    have hab : a = b := by
      cases a; cases b; exact congrArg String.mk hd
    simp [hab]
  · simp [h1, h2]
  · simp [h1, h2]
  · rcases charsLeB_total a.data b.data with h | h
    · exact absurd h h1
    · exact absurd h h2

/-! ## Claim theorems -/

/-- C1: for every state of the trust map and all agent ids `a`, `b`,
`getRelationship(a,b)` equals `getRelationship(b,a)` (the pair key is
symmetric), and `getRelationship(a,a)` is `null`.  Proven for arbitrary
states, hence in particular for every reachable one. -/
theorem getRelationship_symm_and_self_null (st : SysState) (a b : String) :
    getRelationship a b st = getRelationship b a st ∧ getRelationship a a st = none := by
  constructor
  · by_cases h : a = b
    · simp [h]
    · simp [getRelationship, h, Ne.symm h, _getRelationshipKey_symm a b]
  · simp [getRelationship]

/-- C10: `setRelationship(a,a,data)` throws (returns the error, producing no
updated state), while the read side `getRelationship(a,a)` silently returns
`null`; so a self-relationship record can never be written. -/
theorem setRelationship_self_throws (a : String) (data : RelPatch) (now : String)
    (st : SysState) :
    setRelationship a a data now st = .error "不能设置角色与自身的关系" ∧
      getRelationship a a st = none := by
  constructor
  · simp [setRelationship]
  · simp [getRelationship]

theorem updateAgent_relationships_eq (agentId : String) (u : AgentPatch) (now : String)
    (st : SysState) : ((updateAgent agentId u now st).2).relationships = st.relationships := by
  unfold updateAgent
  cases mapGet st.agents agentId <;> rfl

theorem _updateAgentRelationships_relationships_eq (a b : String) (r : Relationship)
    (now : String) (st : SysState) :
    (_updateAgentRelationships a b r now st).relationships = st.relationships := by
  unfold _updateAgentRelationships
  cases h1 : getAgent a st <;> cases h2 : getAgent b st <;>
    simp [h1, h2, updateAgent_relationships_eq]

theorem setRelationship_ok (a b : String) (h : a ≠ b) (data : RelPatch) (now : String)
    (st : SysState) :
    ∃ st', setRelationship a b data now st = .ok (completeRelationship data now, st') ∧
      st'.relationships =
        mapSet st.relationships (_getRelationshipKey a b) (completeRelationship data now) := by
  unfold setRelationship
  simp only [h, if_neg, if_false, ite_false]
  refine ⟨_, rfl, ?_⟩
  rw [_updateAgentRelationships_relationships_eq]

theorem completeRelationship_factors (p : RelPatch) (now : String) :
    (completeRelationship p now).factors = p.factors.getD DEFAULT_RELATIONSHIP.factors := by
  by_cases h : p.createdAt.getD DEFAULT_RELATIONSHIP.createdAt = "" <;>
    simp [completeRelationship, h]

theorem completeRelationship_history (p : RelPatch) (now : String) :
    (completeRelationship p now).history = p.history.getD DEFAULT_RELATIONSHIP.history := by
  by_cases h : p.createdAt.getD DEFAULT_RELATIONSHIP.createdAt = "" <;>
    simp [completeRelationship, h]

theorem completeRelationship_type (p : RelPatch) (now : String) :
    (completeRelationship p now).type = p.type.getD DEFAULT_RELATIONSHIP.type := by
  by_cases h : p.createdAt.getD DEFAULT_RELATIONSHIP.createdAt = "" <;>
    simp [completeRelationship, h]

theorem completeRelationship_updatedAt (p : RelPatch) (now : String) :
    (completeRelationship p now).updatedAt = now := by
  by_cases h : p.createdAt.getD DEFAULT_RELATIONSHIP.createdAt = "" <;>
    simp [completeRelationship, h]

theorem completeRelationship_createdAt (p : RelPatch) (now : String) :
    (completeRelationship p now).createdAt =
      if p.createdAt.getD "" = "" then now else p.createdAt.getD "" := by
  by_cases h : p.createdAt.getD DEFAULT_RELATIONSHIP.createdAt = "" <;>
    simp_all [completeRelationship, DEFAULT_RELATIONSHIP]

/-- C2: for every stored relationship, factor name and delta of any
magnitude, `adjustRelationshipFactor` succeeds (no error) and stores
`max(0, min(100, current + delta))`, `current` defaulting to `0` when the
factor is absent; the stored value lies in `[0,100]`. -/
theorem adjustRelationshipFactor_clamps (a b factor : String) (delta : Int) (now : String)
    (st : SysState) (rel : Relationship) (h : getRelationship a b st = some rel) :
    ∃ r st',
      adjustRelationshipFactor a b factor delta now st = some (r, st') ∧
      mapGet r.factors factor =
        some (max 0 (min 100 ((mapGet rel.factors factor).getD 0 + delta))) ∧
      (0 : Int) ≤ max 0 (min 100 ((mapGet rel.factors factor).getD 0 + delta)) ∧
      max 0 (min 100 ((mapGet rel.factors factor).getD 0 + delta)) ≤ 100 ∧
      getRelationship a b st' = some r := by
  have hne : a ≠ b := by
    intro hab
    rw [hab] at h
    simp [getRelationship] at h
  have hclamp :
      max 0 (min 100 (max 0 (min 100 ((mapGet rel.factors factor).getD 0 + delta)))) =
        max 0 (min 100 ((mapGet rel.factors factor).getD 0 + delta)) := by
    omega
  have hstep :
      adjustRelationshipFactor a b factor delta now st =
        match setRelationship a b
            ({ rel with
                factors := mapSet rel.factors factor
                  (max 0 (min 100 ((mapGet rel.factors factor).getD 0 + delta)))
                updatedAt := now } : Relationship).toPatch now st with
        | .ok res => some res
        | .error _ => none := by
    unfold adjustRelationshipFactor updateRelationshipFactor
    rw [h]
    simp [hclamp]
  obtain ⟨st', hok, hrels⟩ := setRelationship_ok a b hne
      ({ rel with
          factors := mapSet rel.factors factor
            (max 0 (min 100 ((mapGet rel.factors factor).getD 0 + delta)))
          updatedAt := now } : Relationship).toPatch now st
  refine ⟨completeRelationship
      ({ rel with
          factors := mapSet rel.factors factor
            (max 0 (min 100 ((mapGet rel.factors factor).getD 0 + delta)))
          updatedAt := now } : Relationship).toPatch now, st', ?_, ?_, ?_, ?_, ?_⟩
  · rw [hstep, hok]
  · rw [completeRelationship_factors]
    simp [Relationship.toPatch, mapGet_mapSet_self]
  · omega
  · omega
  · rw [getRelationship, if_neg hne, hrels, mapGet_mapSet_self]

/-- C2 witness: adjusting trust by `+1000` on a stored relationship whose
trust is `90` succeeds and stores exactly `100`. -/
theorem adjustRelationshipFactor_clamps_witness :
    (∃ r st',
        adjustRelationshipFactor "alice" "bob" "trust" 1000 "T1" sampleState = some (r, st') ∧
        mapGet r.factors "trust" =
          some (max 0 (min 100 ((mapGet sampleRel.factors "trust").getD 0 + 1000))) ∧
        (0 : Int) ≤ max 0 (min 100 ((mapGet sampleRel.factors "trust").getD 0 + 1000)) ∧
        max 0 (min 100 ((mapGet sampleRel.factors "trust").getD 0 + 1000)) ≤ 100 ∧
        getRelationship "alice" "bob" st' = some r) ∧
      max 0 (min 100 ((mapGet sampleRel.factors "trust").getD 0 + 1000)) = 100 :=
  ⟨adjustRelationshipFactor_clamps "alice" "bob" "trust" 1000 "T1" sampleState sampleRel
      (by decide), by decide⟩

/-- C3: `processActionEffect` is a no-op returning `null` (state unchanged,
no factor change, no history entry) whenever the actor equals the target, the
target type is not `character` (or the target id is unset/falsy), or the pair
has no pre-existing relationship. -/
theorem processActionEffect_noop (action : GameAction) (now : String) (st : SysState)
    (h : action.targetId = some action.actorId ∨
         action.targetType ≠ "character" ∨
         targetIdFalsy action.targetId = true ∨
         ∀ tid, action.targetId = some tid → getRelationship action.actorId tid st = none) :
    processActionEffect action now st = (none, st) := by
  unfold processActionEffect
  by_cases h1 : (action.targetType != "character" || targetIdFalsy action.targetId) = true
  · simp [h1]
  · have h1' := h1
    simp only [Bool.or_eq_true, not_or, bne_iff_ne, ne_eq, not_not, Bool.not_eq_true] at h1'
    obtain ⟨hchar, hfalsy⟩ := h1'
    rw [if_neg h1]
    cases htid : action.targetId with
    | none =>
      rw [htid] at hfalsy
      simp [targetIdFalsy] at hfalsy
    | some tid =>
      rw [htid] at hfalsy
      simp only [targetIdFalsy] at hfalsy
      by_cases h2 : action.actorId = tid
      · simp [htid, h2]
      · rcases h with hc1 | hc2 | hc3 | hc4
        · rw [htid] at hc1
          exact absurd (Option.some.inj hc1).symm h2
        · exact absurd hchar hc2
        · rw [htid] at hc3
          simp only [targetIdFalsy] at hc3
          rw [hc3] at hfalsy
          cases hfalsy
        · have hrel := hc4 tid htid
          simp [htid, h2, hrel]

/-- C3 witness: an action with a non-character target is processed as a
no-op on the sample state. -/
theorem processActionEffect_noop_witness :
    processActionEffect
      { type := "dialogue", actorId := "alice", content := "hi",
        targetType := "none", targetId := none } "T" sampleState = (none, sampleState) :=
  processActionEffect_noop _ _ _ (Or.inr (Or.inl (by decide)))

theorem adjustRelationshipFactor_spec (a b factor : String) (delta : Int) (now : String)
    (st : SysState) (rel : Relationship) (h : getRelationship a b st = some rel) :
    ∃ st',
      adjustRelationshipFactor a b factor delta now st =
        some (adjustedRelationship rel factor delta now, st') ∧
      getRelationship a b st' = some (adjustedRelationship rel factor delta now) := by
  have hne : a ≠ b := by
    intro hab
    rw [hab] at h
    simp [getRelationship] at h
  have hclamp :
      max 0 (min 100 (max 0 (min 100 ((mapGet rel.factors factor).getD 0 + delta)))) =
        max 0 (min 100 ((mapGet rel.factors factor).getD 0 + delta)) := by
    omega
  have hstep :
      adjustRelationshipFactor a b factor delta now st =
        match setRelationship a b
            ({ rel with
                factors := mapSet rel.factors factor
                  (max 0 (min 100 ((mapGet rel.factors factor).getD 0 + delta)))
                updatedAt := now } : Relationship).toPatch now st with
        | .ok res => some res
        | .error _ => none := by
    unfold adjustRelationshipFactor updateRelationshipFactor
    rw [h]
    simp [hclamp]
  obtain ⟨st', hok, hrels⟩ := setRelationship_ok a b hne
      ({ rel with
          factors := mapSet rel.factors factor
            (max 0 (min 100 ((mapGet rel.factors factor).getD 0 + delta)))
          updatedAt := now } : Relationship).toPatch now st
  have hcomp :
      completeRelationship
          ({ rel with
              factors := mapSet rel.factors factor
                (max 0 (min 100 ((mapGet rel.factors factor).getD 0 + delta)))
              updatedAt := now } : Relationship).toPatch now =
        adjustedRelationship rel factor delta now := by
    by_cases hc : rel.createdAt = "" <;>
      simp [completeRelationship, Relationship.toPatch, adjustedRelationship, hc]
  refine ⟨st', ?_, ?_⟩
  · rw [hstep, hok, hcomp]
  · rw [getRelationship, if_neg hne, hrels, mapGet_mapSet_self, hcomp]

theorem addRelationshipHistory_spec (a b : String) (entry : RelHistoryEntry) (now : String)
    (st : SysState) (rel : Relationship) (h : getRelationship a b st = some rel) :
    ∃ st',
      addRelationshipHistory a b entry now st =
        some (appendedHistory rel entry now, st') ∧
      getRelationship a b st' = some (appendedHistory rel entry now) := by
  have hne : a ≠ b := by
    intro hab
    rw [hab] at h
    simp [getRelationship] at h
  have hstep :
      addRelationshipHistory a b entry now st =
        match setRelationship a b
            ({ rel with
                history := rel.history ++
                  [if entry.timestamp = "" then { entry with timestamp := now } else entry]
                updatedAt := now } : Relationship).toPatch now st with
        | .ok res => some res
        | .error _ => none := by
    unfold addRelationshipHistory
    rw [h]
  obtain ⟨st', hok, hrels⟩ := setRelationship_ok a b hne
      ({ rel with
          history := rel.history ++
            [if entry.timestamp = "" then { entry with timestamp := now } else entry]
          updatedAt := now } : Relationship).toPatch now st
  have hcomp :
      completeRelationship
          ({ rel with
              history := rel.history ++
                [if entry.timestamp = "" then { entry with timestamp := now } else entry]
              updatedAt := now } : Relationship).toPatch now =
        appendedHistory rel entry now := by
    by_cases hc : rel.createdAt = "" <;>
      simp [completeRelationship, Relationship.toPatch, appendedHistory, hc]
  refine ⟨st', ?_, ?_⟩
  · rw [hstep, hok, hcomp]
  · rw [getRelationship, if_neg hne, hrels, mapGet_mapSet_self, hcomp]

/-- C4: a dialogue action at a distinct character target with an existing
relationship whose content contains "谢谢" applies exactly the
first-matching keyword category (gratitude: trust `+2`, respect `+1`,
clamped), regardless of any other category keywords in the content, and
appends exactly one history entry recording the computed deltas. -/
theorem processActionEffect_dialogue_thanks (action : GameAction) (now : String) (st : SysState)
    (rel : Relationship) (tid : String)
    (htype : action.type = "dialogue")
    (htt : action.targetType = "character")
    (hti : action.targetId = some tid)
    (htid : tid ≠ "")
    (hne : action.actorId ≠ tid)
    (hrel : getRelationship action.actorId tid st = some rel)
    (hthx : strIncludes action.content "谢谢" = true) :
    ∃ r st',
      processActionEffect action now st = (some r, st') ∧
      mapGet r.factors "trust" =
        some (max 0 (min 100 ((mapGet rel.factors "trust").getD 0 + 2))) ∧
      mapGet r.factors "respect" =
        some (max 0 (min 100 ((mapGet rel.factors "respect").getD 0 + 1))) ∧
      r.history = rel.history ++
        [{ actionType := "dialogue", content := action.content, effectTrust := 2,
           effectIntimacy := 0, effectRespect := 1, timestamp := now }] := by
  have hdelta : actionEffectDeltas action.type action.content = (2, 0, 1) := by
    rw [htype]
    simp [actionEffectDeltas, hthx]
  have hcond : (action.targetType != "character" || targetIdFalsy action.targetId) = false := by
    rw [htt, hti]
    simp [targetIdFalsy, htid]
  obtain ⟨st1, hadj1, hget1⟩ :=
    adjustRelationshipFactor_spec action.actorId tid "trust" 2 now st rel hrel
  obtain ⟨st2, hadj2, hget2⟩ :=
    adjustRelationshipFactor_spec action.actorId tid "respect" 1 now st1
      (adjustedRelationship rel "trust" 2 now) hget1
  obtain ⟨st3, hhist, hget3⟩ :=
    addRelationshipHistory_spec action.actorId tid
      { actionType := "dialogue", content := action.content, effectTrust := 2,
        effectIntimacy := 0, effectRespect := 1, timestamp := "" } now st2
      (adjustedRelationship (adjustedRelationship rel "trust" 2 now) "respect" 1 now) hget2
  have hne1 : ("trust" : String) ≠ "respect" := by decide
  have hne2 : ("respect" : String) ≠ "trust" := by decide
  refine ⟨appendedHistory
      (adjustedRelationship (adjustedRelationship rel "trust" 2 now) "respect" 1 now)
      { actionType := "dialogue", content := action.content, effectTrust := 2,
        effectIntimacy := 0, effectRespect := 1, timestamp := "" } now, st3, ?_, ?_, ?_, ?_⟩
  · rw [htype] at hdelta
    unfold processActionEffect
    rw [hcond]
    simp only [Bool.false_eq_true, if_false, hti, Option.getD_some, if_neg hne, hrel, htype,
      hdelta]
    norm_num
    simp only [hadj1]
    simp only [hadj2]
    simp only [hhist]
    simp [hget3]
  · simp only [appendedHistory, adjustedRelationship]
    rw [mapGet_mapSet_ne _ _ _ _ hne1, mapGet_mapSet_self]
  · simp only [appendedHistory, adjustedRelationship]
    rw [mapGet_mapSet_self, mapGet_mapSet_ne _ _ _ _ hne2]
  · simp [appendedHistory, adjustedRelationship]

/-- C4 witness: a concrete dialogue whose content contains both "谢谢" and
the hostility keyword "讨厌" still gets exactly the gratitude deltas. -/
theorem processActionEffect_dialogue_thanks_witness :
    ∃ r st',
      processActionEffect
        { type := "dialogue", actorId := "alice", content := "谢谢你，但我讨厌你",
          targetType := "character", targetId := some "bob" } "T2" sampleState = (some r, st') ∧
      mapGet r.factors "trust" =
        some (max 0 (min 100 ((mapGet sampleRel.factors "trust").getD 0 + 2))) ∧
      mapGet r.factors "respect" =
        some (max 0 (min 100 ((mapGet sampleRel.factors "respect").getD 0 + 1))) ∧
      r.history = sampleRel.history ++
        [{ actionType := "dialogue", content := "谢谢你，但我讨厌你", effectTrust := 2,
           effectIntimacy := 0, effectRespect := 1, timestamp := "T2" }] :=
  processActionEffect_dialogue_thanks _ "T2" sampleState sampleRel "bob"
    rfl rfl rfl (by decide) (by decide) (by decide) (by decide)

theorem getAgent_relationships_irrelevant (x : String) (st : SysState)
    (rels : List (String × Relationship)) :
    getAgent x { st with relationships := rels } = getAgent x st := rfl

theorem _updateAgentRelationships_mirror (a b : String) (hab : a ≠ b) (r : Relationship)
    (now : String) (st : SysState) :
    (∀ ag1, getAgent a st = some ag1 →
      ∃ ag1', getAgent a (_updateAgentRelationships a b r now st) = some ag1' ∧
        mapGet ag1'.relationships b = some r) ∧
    (∀ ag2, getAgent b st = some ag2 →
      ∃ ag2', getAgent b (_updateAgentRelationships a b r now st) = some ag2' ∧
        mapGet ag2'.relationships a = some r) := by
  have hba : b ≠ a := Ne.symm hab
  unfold _updateAgentRelationships getAgent
  cases h1 : mapGet st.agents a <;> cases h2 : mapGet st.agents b
  · exact ⟨fun ag hga => Option.noConfusion hga, fun ag hga => Option.noConfusion hga⟩
  · refine ⟨fun ag hga => Option.noConfusion hga, fun ag hga => ?_⟩
    rename_i v
    injection hga with h
    subst h
    refine ⟨{ v with relationships := mapSet v.relationships a r, updatedAt := now },
      ?_, mapGet_mapSet_self _ _ _⟩
    simp [updateAgent, h1, h2, mapGet_mapSet_self]
  · refine ⟨fun ag hga => ?_, fun ag hga => Option.noConfusion hga⟩
    rename_i v
    injection hga with h
    subst h
    refine ⟨{ v with relationships := mapSet v.relationships b r, updatedAt := now },
      ?_, mapGet_mapSet_self _ _ _⟩
    simp [updateAgent, h1, h2, mapGet_mapSet_self]
  · rename_i v1 v2
    constructor
    · intro ag hga
      injection hga with h
      subst h
      refine ⟨{ v1 with relationships := mapSet v1.relationships b r, updatedAt := now },
        ?_, mapGet_mapSet_self _ _ _⟩
      simp [updateAgent, h1, h2, mapGet_mapSet_self, mapGet_mapSet_ne, hab, hba]
    · intro ag hga
      injection hga with h
      subst h
      refine ⟨{ v2 with relationships := mapSet v2.relationships a r, updatedAt := now },
        ?_, mapGet_mapSet_self _ _ _⟩
      simp [updateAgent, h1, h2, mapGet_mapSet_self, mapGet_mapSet_ne, hab, hba]

/-- C6 (amended): for distinct agents, `setRelationship` merges the data onto
the default template, always refreshes `updatedAt`, stores the result under
the symmetric key, and mirrors it into both agents' denormalized
`relationships` maps whenever those agents exist in the registry; but
`createdAt` is taken from the *data argument* (defaulting to `now` when the
data carries none or an empty one) — the previously stored record for the
pair is never consulted, so the original `createdAt` survives only when the
caller passes it along inside `data`. -/
theorem setRelationship_spec (a b : String) (hab : a ≠ b) (data : RelPatch) (now : String)
    (st : SysState) :
    ∃ r st', setRelationship a b data now st = .ok (r, st') ∧
      r = completeRelationship data now ∧
      r.updatedAt = now ∧
      r.createdAt = (if data.createdAt.getD "" = "" then now else data.createdAt.getD "") ∧
      getRelationship a b st' = some r ∧
      (∀ ag1, getAgent a st = some ag1 →
        ∃ ag1', getAgent a st' = some ag1' ∧ mapGet ag1'.relationships b = some r) ∧
      (∀ ag2, getAgent b st = some ag2 →
        ∃ ag2', getAgent b st' = some ag2' ∧ mapGet ag2'.relationships a = some r) := by
  obtain ⟨st', hok, hrels⟩ := setRelationship_ok a b hab data now st
  have hmirror := _updateAgentRelationships_mirror a b hab (completeRelationship data now) now
    { st with relationships :=
        mapSet st.relationships (_getRelationshipKey a b) (completeRelationship data now) }
  have hst' : st' =
      _updateAgentRelationships a b (completeRelationship data now) now
        { st with relationships :=
            mapSet st.relationships (_getRelationshipKey a b) (completeRelationship data now) } := by
    have := hok
    unfold setRelationship at this
    rw [if_neg hab] at this
    exact (Prod.mk.injEq _ _ _ _).mp (Except.ok.inj this) |>.2.symm
  refine ⟨completeRelationship data now, st', hok, rfl,
    completeRelationship_updatedAt data now, completeRelationship_createdAt data now,
    ?_, ?_, ?_⟩
  · rw [getRelationship, if_neg hab, hrels, mapGet_mapSet_self]
  · intro ag1 hga
    obtain ⟨ag1', hga', hrel'⟩ := hmirror.1 ag1 (by rw [getAgent_relationships_irrelevant]; exact hga)
    rw [hst']
    exact ⟨ag1', hga', hrel'⟩
  · intro ag2 hga
    obtain ⟨ag2', hga', hrel'⟩ := hmirror.2 ag2 (by rw [getAgent_relationships_irrelevant]; exact hga)
    rw [hst']
    exact ⟨ag2', hga', hrel'⟩

/-- C6 counterexample: the claim "setRelationship preserves the original
`createdAt` of an already-stored relationship for every data argument" fails:
overwriting the stored alice–bob relationship (createdAt
`2024-01-01T00:00:00.000Z`) with an empty data object at time `T9` stores
`createdAt = "T9"`. -/
theorem setRelationship_createdAt_counterexample :
    getRelationship "alice" "bob" sampleState = some sampleRel ∧
    sampleRel.createdAt = "2024-01-01T00:00:00.000Z" ∧
    ∃ r st', setRelationship "alice" "bob" {} "T9" sampleState = .ok (r, st') ∧
      r.createdAt = "T9" ∧ r.createdAt ≠ sampleRel.createdAt := by
  refine ⟨by decide, by decide, ?_⟩
  refine ⟨_, _, rfl, by decide, by decide⟩

/-- C6 witness: the amended statement applied to a concrete state in which
both agents are registered, with a data argument carrying no `createdAt`. -/
theorem setRelationship_spec_witness :
    ∃ r st', setRelationship "alice" "bob" {} "T1" sampleAgentsState = .ok (r, st') ∧
      r = completeRelationship {} "T1" ∧
      r.updatedAt = "T1" ∧
      r.createdAt = (if (RelPatch.createdAt {}).getD "" = "" then "T1"
        else (RelPatch.createdAt {}).getD "") ∧
      getRelationship "alice" "bob" st' = some r ∧
      (∀ ag1, getAgent "alice" sampleAgentsState = some ag1 →
        ∃ ag1', getAgent "alice" st' = some ag1' ∧ mapGet ag1'.relationships "bob" = some r) ∧
      (∀ ag2, getAgent "bob" sampleAgentsState = some ag2 →
        ∃ ag2', getAgent "bob" st' = some ag2' ∧ mapGet ag2'.relationships "alice" = some r) :=
  setRelationship_spec "alice" "bob" (by decide) {} "T1" sampleAgentsState

theorem addEntries_fifo {α : Type} (maxHistoryLength : Nat) :
    ∀ (es log : List α), log.length ≤ maxHistoryLength →
      addEntries maxHistoryLength log es =
        (log ++ es).drop (log.length + es.length - maxHistoryLength) := by
  intro es
  induction es with
  | nil =>
    intro log hlen
    simp [addEntries, Nat.sub_eq_zero_of_le hlen]
  | cons e es ih =>
    intro log hlen
    have hstep : addEntries maxHistoryLength log (e :: es) =
        addEntries maxHistoryLength (addEntry maxHistoryLength log e) es := rfl
    by_cases hfull : maxHistoryLength < (log ++ [e]).length
    · have hlog : log.length = maxHistoryLength := by
        simp at hfull
        omega
      have hentry : addEntry maxHistoryLength log e = (log ++ [e]).drop 1 := by
        simp only [addEntry]
        rw [if_pos hfull]
      have hlen'' : ((log ++ [e]).drop 1).length = maxHistoryLength := by
        simp [hlog]
      rw [hstep, hentry, ih _ (le_of_eq hlen'')]
      rw [hlen'', hlog]
      have h1 : maxHistoryLength + es.length - maxHistoryLength = es.length := by omega
      have h2 : maxHistoryLength + (e :: es).length - maxHistoryLength = es.length + 1 := by
        simp
      rw [h1, h2]
      have hsplit : (log ++ [e]).drop 1 ++ es = ((log ++ [e]) ++ es).drop 1 :=
        (List.drop_append_of_le_length
          (by simp only [List.length_append, List.length_cons, List.length_nil]; omega)).symm
      rw [hsplit, List.drop_drop]
      have hassoc : log ++ e :: es = (log ++ [e]) ++ es := by simp
      rw [hassoc, Nat.add_comm]
    · have hentry : addEntry maxHistoryLength log e = log ++ [e] := by
        simp only [addEntry]
        rw [if_neg hfull]
      have hlen' : (log ++ [e]).length ≤ maxHistoryLength := by
        simp at hfull ⊢
        omega
      rw [hstep, hentry, ih _ hlen']
      have hassoc : (log ++ [e]) ++ es = log ++ e :: es := by simp
      rw [hassoc]
      congr 1
      simp only [List.length_append, List.length_cons, List.length_nil]
      omega

/-- C7: inserting `maxHistoryLength + k` entries into an empty history log
leaves exactly the most recent `maxHistoryLength` entries, in insertion
order (pure FIFO: each overflow drops index 0). -/
theorem addEntries_length_and_suffix {α : Type} (maxHistoryLength k : Nat) (es : List α)
    (hlen : es.length = maxHistoryLength + k) :
    (addEntries maxHistoryLength ([] : List α) es).length = maxHistoryLength ∧
      addEntries maxHistoryLength ([] : List α) es = es.drop k := by
  have h := addEntries_fifo maxHistoryLength es [] (by simp)
  simp only [List.nil_append, List.length_nil, Nat.zero_add] at h
  rw [hlen] at h
  have hk : maxHistoryLength + k - maxHistoryLength = k := by omega
  rw [hk] at h
  refine ⟨?_, h⟩
  rw [h]
  simp [hlen]

/-- C7 witness: four entries into a log of capacity two leave the last two. -/
theorem addEntries_length_and_suffix_witness :
    ((addEntries 2 ([] : List Nat) [10, 20, 30, 40]).length = 2 ∧
      addEntries 2 ([] : List Nat) [10, 20, 30, 40] = [10, 20, 30, 40].drop 2) ∧
    [10, 20, 30, 40].drop 2 = [30, 40] :=
  ⟨addEntries_length_and_suffix 2 2 [10, 20, 30, 40] (by decide), by decide⟩

theorem scanOldest_le (l : List (String × Memory)) :
    ∀ (t : Nat) (i : Option String),
      (scanOldest l t i).1 ≤ t ∧
      ∀ p ∈ l, p.2.importance < MemoryImportance.CRITICAL →
        (scanOldest l t i).1 ≤ p.2.createdAt := by
  induction l with
  | nil => intro t i; exact ⟨le_refl t, by simp⟩
  | cons q rest ih =>
    intro t i
    obtain ⟨id, m⟩ := q
    by_cases h : m.importance < MemoryImportance.CRITICAL ∧ m.createdAt < t
    · have hred : scanOldest ((id, m) :: rest) t i = scanOldest rest m.createdAt (some id) := by
        simp only [scanOldest]
        rw [if_pos h]
      obtain ⟨h1, h2⟩ := ih m.createdAt (some id)
      rw [hred]
      refine ⟨le_trans h1 (le_of_lt h.2), ?_⟩
      intro p hp himp
      rcases List.mem_cons.mp hp with rfl | hp'
      · exact h1
      · exact h2 p hp' himp
    · have hred : scanOldest ((id, m) :: rest) t i = scanOldest rest t i := by
        simp only [scanOldest]
        rw [if_neg h]
      obtain ⟨h1, h2⟩ := ih t i
      rw [hred]
      refine ⟨h1, ?_⟩
      intro p hp himp
      rcases List.mem_cons.mp hp with rfl | hp'
      · have hnot : ¬ m.createdAt < t := fun hlt => h ⟨himp, hlt⟩
        exact le_trans h1 (not_lt.mp hnot)
      · exact h2 p hp' himp

theorem scanOldest_spec (l : List (String × Memory)) :
    ∀ (t : Nat) (i : Option String) (id : String),
      (scanOldest l t i).2 = some id →
      (i = some id ∧ (scanOldest l t i).1 = t) ∨
      (∃ m, (id, m) ∈ l ∧ m.importance < MemoryImportance.CRITICAL ∧
        m.createdAt = (scanOldest l t i).1) := by
  induction l with
  | nil =>
    intro t i id h
    exact .inl ⟨h, rfl⟩
  | cons q rest ih =>
    intro t i id h
    obtain ⟨qid, m⟩ := q
    by_cases hc : m.importance < MemoryImportance.CRITICAL ∧ m.createdAt < t
    · have hred : scanOldest ((qid, m) :: rest) t i = scanOldest rest m.createdAt (some qid) := by
        simp only [scanOldest]
        rw [if_pos hc]
      rw [hred] at h ⊢
      rcases ih m.createdAt (some qid) id h with ⟨hacc, hfst⟩ | ⟨m', hm', himp', hct'⟩
      · obtain rfl := Option.some.inj hacc
        exact .inr ⟨m, List.mem_cons_self _ _, hc.1, hfst.symm⟩
      · exact .inr ⟨m', List.mem_cons_of_mem _ hm', himp', hct'⟩
    · have hred : scanOldest ((qid, m) :: rest) t i = scanOldest rest t i := by
        simp only [scanOldest]
        rw [if_neg hc]
      rw [hred] at h ⊢
      rcases ih t i id h with hl | ⟨m', hm', himp', hct'⟩
      · exact .inl hl
      · exact .inr ⟨m', List.mem_cons_of_mem _ hm', himp', hct'⟩

theorem mem_eq_of_key_nodup {β : Type} {l : List (String × β)}
    (h : (l.map Prod.fst).Nodup) {p q : String × β} (hp : p ∈ l) (hq : q ∈ l)
    (hk : p.1 = q.1) : p = q := by
  induction l with
  | nil => cases hp
  | cons r rest ih =>
    simp only [List.map_cons, List.nodup_cons] at h
    rcases List.mem_cons.mp hp with rfl | hp' <;> rcases List.mem_cons.mp hq with rfl | hq'
    · rfl
    · exact absurd (hk ▸ List.mem_map_of_mem Prod.fst hq') h.1
    · exact absurd (hk ▸ List.mem_map_of_mem Prod.fst hp') h.1
    · exact ih h.2 hp' hq'

/-- C8: whenever `addMemory` evicts an entry (removes it from the stored map),
the evicted record is never of CRITICAL importance, and its `createdAt` is
minimal among all non-critical records in the map — i.e. the oldest
non-critical memory is the one evicted.  `hnd` is the key-uniqueness
invariant of the JS `Map`. -/
theorem addMemory_eviction_spec (maxMemories now : Nat) (memory : Memory)
    (memories : List (String × Memory))
    (hnd : ((mapSet memories memory.id memory).map Prod.fst).Nodup) :
    ∀ p ∈ mapSet memories memory.id memory,
      p ∉ addMemory maxMemories now memory memories →
      p.2.importance < MemoryImportance.CRITICAL ∧
      ∀ q ∈ mapSet memories memory.id memory,
        q.2.importance < MemoryImportance.CRITICAL → p.2.createdAt ≤ q.2.createdAt := by
  intro p hp hnp
  unfold addMemory at hnp
  by_cases hsz : maxMemories < (mapSet memories memory.id memory).length
  · rw [if_pos hsz] at hnp
    unfold _removeOldestMemory at hnp
    cases hscan : (scanOldest (mapSet memories memory.id memory) now none).2 with
    | none =>
      rw [hscan] at hnp
      exact absurd hp hnp
    | some oldestId =>
      rw [hscan] at hnp
      have hpid : p.1 = oldestId := by
        by_contra hne
        exact hnp (List.mem_filter.mpr ⟨hp, by simp [hne]⟩)
      rcases scanOldest_spec _ now none oldestId hscan with ⟨h0, -⟩ | ⟨m, hm, himp, hct⟩
      · cases h0
      · have hpm : p = (oldestId, m) :=
          mem_eq_of_key_nodup hnd hp hm hpid
      
        refine ⟨by rw [hpm]; exact himp, ?_⟩
        intro q hq hqimp
        rw [hpm]
        show m.createdAt ≤ q.2.createdAt
        rw [hct]
        exact (scanOldest_le _ now none).2 q hq hqimp
  · rw [if_neg hsz] at hnp
    exact absurd hp hnp

/-- C8 witness: capacity 2, one critical and one low record, inserting a
medium record evicts the low one (`m2`), which is non-critical and oldest. -/
theorem addMemory_eviction_spec_witness :
    ("m2", ({ id := "m2", importance := 1, createdAt := 10 } : Memory)).2.importance <
      MemoryImportance.CRITICAL ∧
    ∀ q ∈ mapSet sampleMemories sampleNewMemory.id sampleNewMemory,
      q.2.importance < MemoryImportance.CRITICAL →
      ("m2", ({ id := "m2", importance := 1, createdAt := 10 } : Memory)).2.createdAt ≤
        q.2.createdAt :=
  addMemory_eviction_spec 2 100 sampleNewMemory sampleMemories (by decide)
    ("m2", { id := "m2", importance := 1, createdAt := 10 }) (by decide) (by decide)

theorem lazyCore_decomp (tailOk : List Char → Bool) :
    ∀ (cs acc core : List Char), lazyCore tailOk cs acc = some core →
      ∃ mid rest, cs = mid ++ rest ∧ core = acc.reverse ++ mid ∧ tailOk rest = true ∧
        core ≠ [] := by
  intro cs
  induction cs with
  | nil =>
    intro acc core h
    simp only [lazyCore] at h
    by_cases hc : acc ≠ [] ∧ tailOk [] = true
    · rw [if_pos hc] at h
      injection h with h2
      subst h2
      exact ⟨[], [], by simp, by simp, hc.2, by simpa using hc.1⟩
    · rw [if_neg hc] at h
      cases h
  | cons c cs' ih =>
    intro acc core h
    simp only [lazyCore] at h
    by_cases hc : acc ≠ [] ∧ tailOk (c :: cs') = true
    · rw [if_pos hc] at h
      injection h with h2
      subst h2
      exact ⟨[], c :: cs', by simp, by simp, hc.2, by simpa using hc.1⟩
    · rw [if_neg hc] at h
      by_cases hdot : isDotChar c = true
      · rw [if_pos hdot] at h
        obtain ⟨mid', rest, heq, hcore, htail, hne⟩ := ih (c :: acc) core h
        refine ⟨c :: mid', rest, by simp [heq], ?_, htail, hne⟩
        rw [hcore]
        simp
      · rw [if_neg hdot] at h
        cases h

theorem matchWrapped_anchored (opens closes : List Char) (input content : String)
    (h : matchWrapped opens closes input = some content) :
    ∃ w1 oc mid cc w2,
      input.data = w1 ++ oc :: (mid ++ cc :: w2) ∧
      content.data = mid ∧ mid ≠ [] ∧
      w1.all jsWhitespaceChar = true ∧ w2.all jsWhitespaceChar = true ∧
      oc ∈ opens ∧ cc ∈ closes := by
  unfold matchWrapped at h
  cases hdw : input.data.dropWhile jsWhitespaceChar with
  | nil =>
    rw [hdw] at h
    cases h
  | cons c rest =>
    rw [hdw] at h
    have h : (if opens.contains c = true then
        Option.map String.mk (lazyCore (wrapTailOk closes) rest []) else none) = some content := h
    by_cases hc : opens.contains c = true
    · rw [if_pos hc] at h
      cases hlc : lazyCore (wrapTailOk closes) rest [] with
      | none =>
        rw [hlc] at h
        cases h
      | some core =>
        rw [hlc] at h
        simp only [Option.map_some'] at h
        injection h with h2
        subst h2
        obtain ⟨mid, rest', heq, hcore, htail, hne⟩ := lazyCore_decomp _ rest [] core hlc
        simp only [List.reverse_nil, List.nil_append] at hcore
        subst hcore
        cases rest' with
        | nil => simp [wrapTailOk] at htail
        | cons cc w2 =>
          simp only [wrapTailOk, Bool.and_eq_true] at htail
          obtain ⟨hcc, hw2⟩ := htail
          refine ⟨input.data.takeWhile jsWhitespaceChar, c, core, cc, w2, ?_, rfl, hne, ?_, hw2,
            ?_, ?_⟩
          · conv_lhs => rw [← List.takeWhile_append_dropWhile (p := jsWhitespaceChar)
              (l := input.data)]
            rw [hdw, heq]
          · exact List.all_takeWhile
          · simpa using hc
          · simpa using hcc
    · rw [if_neg hc] at h
      cases h

theorem matchQuoted_anchored (input content : String)
    (h : matchQuoted input = some content) :
    ∃ w1 mid t,
      input.data = w1 ++ '"' :: (mid ++ t) ∧ content.data = mid ∧ mid ≠ [] ∧
      w1.all jsWhitespaceChar = true ∧
      (t.all jsWhitespaceChar = true ∨
        ∃ w2, t = '"' :: w2 ∧ w2.all jsWhitespaceChar = true) := by
  unfold matchQuoted at h
  cases hdw : input.data.dropWhile jsWhitespaceChar with
  | nil =>
    rw [hdw] at h
    cases h
  | cons c rest =>
    rw [hdw] at h
    have h : (if (c == '"') = true then
        Option.map String.mk (lazyCore quoteTailOk rest []) else none) = some content := h
    by_cases hc : (c == '"') = true
    · rw [if_pos hc] at h
      cases hlc : lazyCore quoteTailOk rest [] with
      | none =>
        rw [hlc] at h
        cases h
      | some core =>
        rw [hlc] at h
        simp only [Option.map_some'] at h
        injection h with h2
        subst h2
        obtain ⟨mid, rest', heq, hcore, htail, hne⟩ := lazyCore_decomp _ rest [] core hlc
        simp only [List.reverse_nil, List.nil_append] at hcore
        subst hcore
        obtain rfl : c = '"' := by simpa using hc
        refine ⟨input.data.takeWhile jsWhitespaceChar, core, rest', ?_, rfl, hne, ?_, ?_⟩
        · conv_lhs => rw [← List.takeWhile_append_dropWhile (p := jsWhitespaceChar)
            (l := input.data)]
          rw [hdw, heq]
        · exact List.all_takeWhile
        · simp only [quoteTailOk, Bool.or_eq_true] at htail
          rcases htail with htail | htail
          · exact .inl htail
          · right
            cases rest' with
            | nil => cases htail
            | cons t0 w2 =>
              simp only [Bool.and_eq_true] at htail
              obtain ⟨ht0, hw2⟩ := htail
              obtain rfl : t0 = '"' := by simpa using ht0
              exact ⟨w2, rfl, hw2⟩
    · rw [if_neg hc] at h
      cases h

/-- C9: `parseActionInput` maps `【攻击门】` to an action, `「使用药水」` to an
item use, and `你好` to a dialogue with the raw input; the bracket, brace and
quote patterns are tried in that order with the first match winning, each
pattern is anchored so that a match decomposes the whole input as optional
whitespace, the wrapper characters and the captured group, and any input
matching none of the patterns falls back to a dialogue carrying the raw
input. -/
theorem parseActionInput_spec :
    parseActionInput "【攻击门】" = { type := "action", content := "攻击门" } ∧
    parseActionInput "「使用药水」" = { type := "item", content := "使用药水" } ∧
    parseActionInput "你好" = { type := "dialogue", content := "你好" } ∧
    (∀ input : String,
      matchWrapped ['[', '【'] [']', '】'] input = none →
      matchWrapped ['{', '「'] ['}', '」'] input = none →
      matchQuoted input = none →
      parseActionInput input = { type := "dialogue", content := input }) ∧
    (∀ input content : String,
      parseActionInput input = { type := "action", content := content } ↔
        matchWrapped ['[', '【'] [']', '】'] input = some content) ∧
    (∀ input content : String,
      parseActionInput input = { type := "item", content := content } ↔
        (matchWrapped ['[', '【'] [']', '】'] input = none ∧
         matchWrapped ['{', '「'] ['}', '」'] input = some content)) ∧
    (∀ (opens closes : List Char) (input content : String),
      matchWrapped opens closes input = some content →
      ∃ w1 oc mid cc w2,
        input.data = w1 ++ oc :: (mid ++ cc :: w2) ∧ content.data = mid ∧ mid ≠ [] ∧
        w1.all jsWhitespaceChar = true ∧ w2.all jsWhitespaceChar = true ∧
        oc ∈ opens ∧ cc ∈ closes) ∧
    (∀ input content : String,
      matchQuoted input = some content →
      ∃ w1 mid t,
        input.data = w1 ++ '"' :: (mid ++ t) ∧ content.data = mid ∧ mid ≠ [] ∧
        w1.all jsWhitespaceChar = true ∧
        (t.all jsWhitespaceChar = true ∨
          ∃ w2, t = '"' :: w2 ∧ w2.all jsWhitespaceChar = true)) := by
  refine ⟨by decide, by decide, by decide, ?_, ?_, ?_,
    fun opens closes input content h => matchWrapped_anchored opens closes input content h,
    fun input content h => matchQuoted_anchored input content h⟩
  · intro input h1 h2 h3
    unfold parseActionInput
    rw [h1, h2, h3]
  · intro input content
    unfold parseActionInput
    cases ha : matchWrapped ['[', '【'] [']', '】'] input with
    | some c' => simp [ParsedInput.mk.injEq]
    | none =>
      cases hb : matchWrapped ['{', '「'] ['}', '」'] input with
      | some c' => simp [ParsedInput.mk.injEq]
      | none =>
        cases hq : matchQuoted input with
        | some c' => simp [ParsedInput.mk.injEq]
        | none => simp [ParsedInput.mk.injEq]
  · intro input content
    unfold parseActionInput
    cases ha : matchWrapped ['[', '【'] [']', '】'] input with
    | some c' => simp [ParsedInput.mk.injEq]
    | none =>
      cases hb : matchWrapped ['{', '「'] ['}', '」'] input with
      | some c' => simp [ParsedInput.mk.injEq]
      | none =>
        cases hq : matchQuoted input with
        | some c' => simp [ParsedInput.mk.injEq]
        | none => simp [ParsedInput.mk.injEq]

/-- C9 witness: an input matching none of the three anchored patterns parses
as a dialogue carrying the raw input. -/
theorem parseActionInput_spec_witness :
    parseActionInput "早安" = { type := "dialogue", content := "早安" } :=
  parseActionInput_spec.2.2.2.1 "早安" (by decide) (by decide) (by decide)

theorem lowTrustBranch_sets (ctx : PolicyContext)
    (h1 : ¬(ctx.action.type = "dialogue" ∧ ctx.action.targetId = some ctx.agent.id))
    (h2 : ¬(70 < ctx.agent.emotionIntensity))
    (h3 : ¬((strIncludes ctx.action.content "请求" ||
        strIncludes ctx.action.content "帮助") = true))
    (h4 : lowTrust ctx.relationship = true) :
    {r : ℝ | r ∈ Set.Ico (0 : ℝ) 1 ∧ _determineResponseType ctx r = "rejection"} =
        Set.Ioo (7 / 10 : ℝ) 1 ∧
    {r : ℝ | r ∈ Set.Ico (0 : ℝ) 1 ∧ _determineResponseType ctx r = "dialogue"} =
        Set.Icc (0 : ℝ) (7 / 10) := by
  have hbr : ∀ r : ℝ, _determineResponseType ctx r =
      if (7 / 10 : ℝ) < r then "rejection" else "dialogue" := by
    intro r
    unfold _determineResponseType
    rw [if_neg h1, if_neg h2, if_neg h3, if_pos h4]
  constructor
  · ext r
    simp only [Set.mem_setOf_eq, Set.mem_Ico, Set.mem_Ioo, hbr]
    constructor
    · rintro ⟨⟨h0, hlt1⟩, heq⟩
      by_cases hr : (7 / 10 : ℝ) < r
      · exact ⟨hr, hlt1⟩
      · rw [if_neg hr] at heq
        exact absurd heq (by decide)
    · rintro ⟨hgt, hlt⟩
      refine ⟨⟨by linarith, hlt⟩, ?_⟩
      rw [if_pos hgt]
  · ext r
    simp only [Set.mem_setOf_eq, Set.mem_Ico, Set.mem_Icc, hbr]
    constructor
    · rintro ⟨⟨h0, hlt1⟩, heq⟩
      by_cases hr : (7 / 10 : ℝ) < r
      · rw [if_pos hr] at heq
        exact absurd heq (by decide)
      · exact ⟨h0, not_lt.mp hr⟩
    · rintro ⟨h0, hle⟩
      refine ⟨⟨h0, by linarith⟩, ?_⟩
      rw [if_neg (not_lt.mpr hle)]

/-- C5 (amended): `_determineResponseType` is the ordered decision list with
first match winning — (1) a dialogue action targeted at this agent yields
DIALOGUE; (2) else emotion intensity above 70 yields EMOTION; (3) else a
request/help keyword yields DECISION; (4) else, when a relationship exists
with trust below 20, the uniform draw on `[0,1)` yields REJECTION with
probability 30% (the draw region `(0.7, 1)`) and DIALOGUE with probability
70% — not the other way round; (5) else DIALOGUE. -/
theorem _determineResponseType_spec (ctx : PolicyContext) :
    ((ctx.action.type = "dialogue" ∧ ctx.action.targetId = some ctx.agent.id) →
      ∀ r : ℝ, _determineResponseType ctx r = "dialogue") ∧
    (¬(ctx.action.type = "dialogue" ∧ ctx.action.targetId = some ctx.agent.id) →
      70 < ctx.agent.emotionIntensity →
      ∀ r : ℝ, _determineResponseType ctx r = "emotion") ∧
    (¬(ctx.action.type = "dialogue" ∧ ctx.action.targetId = some ctx.agent.id) →
      ¬(70 < ctx.agent.emotionIntensity) →
      (strIncludes ctx.action.content "请求" || strIncludes ctx.action.content "帮助") = true →
      ∀ r : ℝ, _determineResponseType ctx r = "decision") ∧
    (¬(ctx.action.type = "dialogue" ∧ ctx.action.targetId = some ctx.agent.id) →
      ¬(70 < ctx.agent.emotionIntensity) →
      ¬((strIncludes ctx.action.content "请求" ||
          strIncludes ctx.action.content "帮助") = true) →
      lowTrust ctx.relationship = true →
      MeasureTheory.volume
          {r : ℝ | r ∈ Set.Ico (0 : ℝ) 1 ∧ _determineResponseType ctx r = "rejection"} =
        ENNReal.ofReal (3 / 10) ∧
      MeasureTheory.volume
          {r : ℝ | r ∈ Set.Ico (0 : ℝ) 1 ∧ _determineResponseType ctx r = "dialogue"} =
        ENNReal.ofReal (7 / 10)) ∧
    (¬(ctx.action.type = "dialogue" ∧ ctx.action.targetId = some ctx.agent.id) →
      ¬(70 < ctx.agent.emotionIntensity) →
      ¬((strIncludes ctx.action.content "请求" ||
          strIncludes ctx.action.content "帮助") = true) →
      lowTrust ctx.relationship = false →
      ∀ r : ℝ, _determineResponseType ctx r = "dialogue") := by
  refine ⟨?_, ?_, ?_, ?_, ?_⟩
  · intro hb1 r
    unfold _determineResponseType
    rw [if_pos hb1]
  · intro hb1 hb2 r
    unfold _determineResponseType
    rw [if_neg hb1, if_pos hb2]
  · intro hb1 hb2 hb3 r
    unfold _determineResponseType
    rw [if_neg hb1, if_neg hb2, if_pos hb3]
  · intro hb1 hb2 hb3 hb4
    obtain ⟨hrej, hdia⟩ := lowTrustBranch_sets ctx hb1 hb2 hb3 hb4
    constructor
    · rw [hrej, Real.volume_Ioo]
      norm_num
    · rw [hdia, Real.volume_Icc]
      norm_num
  · intro hb1 hb2 hb3 hb4 r
    unfold _determineResponseType
    rw [if_neg hb1, if_neg hb2, if_neg hb3, if_neg (by simp [hb4])]

/-- C5 counterexample: at a concrete low-trust context the REJECTION region
of the uniform draw has measure 3/10, not the 7/10 the claim asserts. -/
theorem _determineResponseType_rejection_prob_counterexample :
    MeasureTheory.volume
        {r : ℝ | r ∈ Set.Ico (0 : ℝ) 1 ∧
          _determineResponseType sampleLowTrustContext r = "rejection"} ≠
      ENNReal.ofReal (7 / 10) := by
  have hs := (lowTrustBranch_sets sampleLowTrustContext (by decide) (by decide) (by decide)
    (by decide)).1
  rw [hs, Real.volume_Ioo, Ne, ENNReal.ofReal_eq_ofReal_iff (by norm_num) (by norm_num)]
  norm_num

/-- C5 witness: the amended probabilities at the concrete low-trust
context. -/
theorem _determineResponseType_spec_witness :
    MeasureTheory.volume
        {r : ℝ | r ∈ Set.Ico (0 : ℝ) 1 ∧
          _determineResponseType sampleLowTrustContext r = "rejection"} =
      ENNReal.ofReal (3 / 10) ∧
    MeasureTheory.volume
        {r : ℝ | r ∈ Set.Ico (0 : ℝ) 1 ∧
          _determineResponseType sampleLowTrustContext r = "dialogue"} =
      ENNReal.ofReal (7 / 10) :=
  (_determineResponseType_spec sampleLowTrustContext).2.2.2.1 (by decide) (by decide)
    (by decide) (by decide)
